import Mathlib

/-
Shallow embedding of the OAuth client in src/strava_oauth.py
(Strava-to-TrainingPeaks repository), together with proofs about the
specified behaviour of its data model and operations.

Conventions used throughout:
- Python ints are modelled as Lean Int (Python ints are unbounded).
- Clock readings (time.time()) are passed in explicitly as an Int now.
- Fallible Python code is modelled with Except PyErr; the constructors of
  PyErr name the Python exception classes that can escape the modelled code.
- Network responses are passed in explicitly as values of a response type;
  the transportError / httpError / invalidJson constructors are exactly the
  cases in which requests raises a requests.RequestException (which the
  source catches), and the ok constructor carries the decoded JSON body.
-/

/-- Python exception classes that the modelled code can raise or catch. -/
inductive PyErr where
  | jsonDecodeError
  | keyError
  | valueError
  | typeError
  | attributeError
  deriving DecidableEq, Repr

/-- The AthleteToken dataclass (src/strava_oauth.py lines 50-64). -/
structure AthleteToken where
  athlete_id : Int
  athlete_name : String
  access_token : String
  refresh_token : String
  expires_at : Int
  token_type : String
  scopes : String
  deriving DecidableEq, Repr

/-- Default scopes constant (src/strava_oauth.py line 32). -/
def DEFAULT_SCOPES : String := "activity:read_all"

/-- AthleteToken.is_expired (lines 61-64): now >= expires_at - 300, with the
clock reading passed explicitly. -/
def AthleteToken.is_expired (t : AthleteToken) (now : Int) : Bool :=
  decide (now ≥ t.expires_at - 300)

/-- One GET request arriving at the callback server: its path and the code
and error query parameters extracted by parse_qs. -/
structure CallbackRequest where
  path : String
  code : Option String
  error : Option String
  deriving DecidableEq, Repr

/-- The class-level result slot of OAuthCallbackHandler (lines 146-147). -/
structure HandlerState where
  authorization_code : Option String
  error : Option String
  deriving DecidableEq, Repr

/-- OAuthCallbackHandler.do_GET (lines 153-172): processing one request.
Returns the new state and whether the result slot was written. -/
def do_GET (s : HandlerState) (r : CallbackRequest) : HandlerState × Bool :=
  if r.path = "/callback" then
    match r.code with
    | some c => ({ s with authorization_code := some c }, true)
    | none =>
      match r.error with
      | some e => ({ s with error := some e }, true)
      | none => (s, false)
  else
    (s, false)

/-- The break condition of the poll loop in _run_server (line 504). -/
def resultRecorded (s : HandlerState) : Bool :=
  s.authorization_code.isSome || s.error.isSome

/-- StravaOAuthClient._run_server (lines 499-510): each iteration first
checks whether a result has been recorded and breaks if so, otherwise
handles at most one request (an empty queue stands for the one-second
socket timeout, whose OSError is swallowed and the loop continues).
Fuel stands for the remaining whole-second time budget; the second
component counts how often the result slot was written. -/
def runServer : Nat → List CallbackRequest → HandlerState → HandlerState × Nat
  | 0, _, s => (s, 0)
  | n + 1, reqs, s =>
    if resultRecorded s then (s, 0)
    else
      match reqs with
      | [] => runServer n [] s
      | r :: rest =>
        ((runServer n rest (do_GET s r).1).1,
          (if (do_GET s r).2 then 1 else 0) + (runServer n rest (do_GET s r).1).2)

/-- Outcome decision of authorize_athlete after the wait (lines 486-497). -/
inductive AuthOutcome where
  | exchange (code : String)
  | failed (err : String)
  | timedOut
  deriving DecidableEq, Repr

/-- The branch structure at the end of authorize_athlete (lines 486-497):
a captured code is checked first, then a captured error, else timeout. -/
def authOutcome (s : HandlerState) : AuthOutcome :=
  match s.authorization_code with
  | some c => AuthOutcome.exchange c
  | none =>
    match s.error with
    | some e => AuthOutcome.failed e
    | none => AuthOutcome.timedOut

/-- Operations authorize_athlete performs on the listener server object.
Their effect on the listening socket follows the documented semantics of
the Python socketserver module: shutdown only stops a serve_forever loop
and does not close the socket; only server_close closes it. -/
inductive ServerOp where
  | createServer
  | setSocketTimeout
  | startThread
  | joinThread
  | shutdownServer
  | closeServer
  deriving DecidableEq, Repr

/-- State of the listening socket of the callback server. -/
structure SocketState where
  socketOpen : Bool
  deriving DecidableEq, Repr

/-- Effect of each server operation on the listening socket (socketserver
semantics: HTTPServer construction binds and listens; server_close closes;
shutdown does not touch the socket). -/
def applyServerOp (s : SocketState) : ServerOp → SocketState
  | ServerOp.createServer => { socketOpen := true }
  | ServerOp.closeServer => { socketOpen := false }
  | _ => s

/-- The sequence of server-lifecycle operations that authorize_athlete
(lines 456-497) performs on the listener: construct the HTTPServer, set the
socket timeout, start and join the worker thread, call shutdown. No
server_close call appears anywhere in the function. -/
def authorizeServerOps : List ServerOp :=
  [ServerOp.createServer, ServerOp.setSocketTimeout, ServerOp.startThread,
   ServerOp.joinThread, ServerOp.shutdownServer]

lemma runServer_frozen (fuel : Nat) (reqs : List CallbackRequest) (s : HandlerState)
    (h : resultRecorded s = true) : runServer fuel reqs s = (s, 0) := by
  cases fuel with
  | zero => rfl
  | succ n => simp [runServer, h]

lemma do_GET_write_records (s : HandlerState) (r : CallbackRequest)
    (h : (do_GET s r).2 = true) : resultRecorded (do_GET s r).1 = true := by
  obtain ⟨p, c, e⟩ := r
  cases c <;> cases e <;> by_cases hp : p = "/callback" <;>
    simp_all [do_GET, resultRecorded]

lemma runServer_writes_le_one (fuel : Nat) :
    ∀ (reqs : List CallbackRequest) (s : HandlerState),
      (runServer fuel reqs s).2 ≤ 1 := by
  induction fuel with
  | zero => intro reqs s; simp [runServer]
  | succ n ih =>
    intro reqs s
    by_cases hr : resultRecorded s = true
    · simp [runServer, hr]
    · cases reqs with
      | nil =>
        simp only [runServer, hr, if_false, Bool.false_eq_true]
        exact ih [] s
      | cons r rest =>
        simp only [runServer, hr, if_false, Bool.false_eq_true]
        by_cases hw : (do_GET s r).2 = true
        · have hrec := runServer_frozen n rest (do_GET s r).1 (do_GET_write_records s r hw)
          simp [hw, hrec]
        · have hw' : (do_GET s r).2 = false := by
            cases hww : (do_GET s r).2
            · rfl
            · exact absurd hww hw
          simp only [hw', if_false, Bool.false_eq_true, Nat.zero_add]
          exact ih rest (do_GET s r).1

/-- C1: within one authorization attempt, the result slot is written at most
once: the whole poll loop performs at most one write, and once a code or
error has been recorded the loop processes no further request and leaves
the recorded state unchanged. -/
theorem callback_result_written_at_most_once :
    (∀ (fuel : Nat) (reqs : List CallbackRequest) (s : HandlerState),
      (runServer fuel reqs s).2 ≤ 1) ∧
    (∀ (fuel : Nat) (reqs : List CallbackRequest) (s : HandlerState),
      resultRecorded s = true → runServer fuel reqs s = (s, 0)) :=
  ⟨fun fuel reqs s => runServer_writes_le_one fuel reqs s,
   fun fuel reqs s h => runServer_frozen fuel reqs s h⟩

/-- Witness for C1: a second callback carrying a different code leaves an
already-recorded result untouched, and a full run from the reset state over
two code-carrying requests writes at most once. -/
theorem callback_result_written_at_most_once_witness :
    (runServer 5 [⟨"/callback", some "A", none⟩, ⟨"/callback", some "B", none⟩]
      ⟨none, none⟩).2 ≤ 1 ∧
    runServer 3 [⟨"/callback", some "B", none⟩] ⟨some "A", none⟩ =
      (⟨some "A", none⟩, 0) :=
  ⟨callback_result_written_at_most_once.1 5
      [⟨"/callback", some "A", none⟩, ⟨"/callback", some "B", none⟩] ⟨none, none⟩,
   callback_result_written_at_most_once.2 3
      [⟨"/callback", some "B", none⟩] ⟨some "A", none⟩ rfl⟩

/-- C3: is_expired is true exactly when now >= expires_at - 300, true at the
boundary now = expires_at - 300 and false at now = expires_at - 301. -/
theorem is_expired_boundary (now : Int) (t : AthleteToken) :
    (t.is_expired now = true ↔ now ≥ t.expires_at - 300) ∧
    t.is_expired (t.expires_at - 300) = true ∧
    t.is_expired (t.expires_at - 301) = false := by
  refine ⟨?_, ?_, ?_⟩
  · simp [AthleteToken.is_expired]
  · simp [AthleteToken.is_expired]
  · simp [AthleteToken.is_expired]
    omega

/-- C10: when both a code and an error are present in the handler state at
the end of the wait, authorize_athlete branches on the code first, so the
outcome is the code exchange and the captured error is ignored. -/
theorem code_takes_precedence_over_error (c e : String) :
    authOutcome ⟨some c, some e⟩ = AuthOutcome.exchange c := rfl

/-- C9: replaying the server-lifecycle operations of authorize_athlete
leaves the listening socket open: server_close is never invoked, and
shutdown does not close the socket, so the attempt ends with the socket
still open rather than promptly closed. -/
theorem authorize_never_closes_listener_socket :
    (authorizeServerOps.foldl applyServerOp ⟨false⟩).socketOpen = true ∧
    ServerOp.closeServer ∉ authorizeServerOps := by
  exact ⟨rfl, by decide⟩

/-- Decimal digit to its character, as produced by Python str(). -/
def digitChar (d : Nat) : Char :=
  match d with
  | 0 => '0'
  | 1 => '1'
  | 2 => '2'
  | 3 => '3'
  | 4 => '4'
  | 5 => '5'
  | 6 => '6'
  | 7 => '7'
  | 8 => '8'
  | _ => '9'

/-- Character to decimal digit, as accepted by Python int(). -/
def charToDigit (c : Char) : Option Nat :=
  if c = '0' then some 0
  else if c = '1' then some 1
  else if c = '2' then some 2
  else if c = '3' then some 3
  else if c = '4' then some 4
  else if c = '5' then some 5
  else if c = '6' then some 6
  else if c = '7' then some 7
  else if c = '8' then some 8
  else if c = '9' then some 9
  else none

/-- Little-endian decimal digits of a natural number; the first argument is
fuel, always called with fuel at least n. -/
def natToDigitsAux : Nat → Nat → List Nat
  | 0, _ => []
  | fuel + 1, n => if n = 0 then [] else n % 10 :: natToDigitsAux fuel (n / 10)

/-- Little-endian decimal digits of n. -/
def natDigits (n : Nat) : List Nat := natToDigitsAux n n

/-- Python str() on a non-negative int: most-significant digit first. -/
def natToStr (n : Nat) : String :=
  if n = 0 then "0" else String.mk ((natDigits n).reverse.map digitChar)

/-- Python str() on an int. -/
def intToStr (i : Int) : String :=
  if i < 0 then "-" ++ natToStr i.natAbs else natToStr i.toNat

/-- Accumulator-style decimal parse of a character list. -/
def parseNatAux : List Char → Nat → Option Nat
  | [], acc => some acc
  | c :: cs, acc =>
    match charToDigit c with
    | some d => parseNatAux cs (acc * 10 + d)
    | none => none

/-- Parse of a non-empty all-digit character list. -/
def parseNatChars (cs : List Char) : Option Nat :=
  if cs = [] then none else parseNatAux cs 0

/-- Python int() on a string, restricted to the canonical forms produced by
str(): an optional leading minus sign followed by decimal digits. (Python
int() additionally tolerates surrounding whitespace, a plus sign and digit
group underscores; none of those occur in the files this program writes.)
A non-numeric string raises ValueError. -/
def parseIntChars : List Char → Except PyErr Int
  | [] => Except.error PyErr.valueError
  | c :: cs =>
    if c = '-' then
      match parseNatChars cs with
      | some n => Except.ok (-(n : Int))
      | none => Except.error PyErr.valueError
    else
      match parseNatChars (c :: cs) with
      | some n => Except.ok (n : Int)
      | none => Except.error PyErr.valueError

/-- Python int() applied to a string. -/
def parseIntStr (s : String) : Except PyErr Int :=
  parseIntChars s.data

/-- Value of a little-endian digit list. -/
def valLE : List Nat → Nat
  | [] => 0
  | d :: ds => d + 10 * valLE ds

lemma charToDigit_digitChar (d : Nat) (h : d < 10) :
    charToDigit (digitChar d) = some d := by
  interval_cases d <;> rfl

lemma digitChar_ne_dash (d : Nat) : digitChar d ≠ '-' := by
  unfold digitChar
  split <;> decide

lemma natToDigitsAux_lt (fuel : Nat) :
    ∀ n d, d ∈ natToDigitsAux fuel n → d < 10 := by
  induction fuel with
  | zero => intro n d h; simp [natToDigitsAux] at h
  | succ m ih =>
    intro n d h
    by_cases hn : n = 0
    · simp [natToDigitsAux, hn] at h
    · simp only [natToDigitsAux, hn, if_false, List.mem_cons] at h
      rcases h with h | h
      · omega
      · exact ih (n / 10) d h

lemma valLE_natToDigitsAux (fuel : Nat) :
    ∀ n, n ≤ fuel → valLE (natToDigitsAux fuel n) = n := by
  induction fuel with
  | zero => intro n h; interval_cases n; rfl
  | succ m ih =>
    intro n h
    by_cases hn : n = 0
    · simp [natToDigitsAux, hn, valLE]
    · have hdiv : n / 10 ≤ m := by omega
      simp only [natToDigitsAux, hn, if_false, valLE]
      rw [ih (n / 10) hdiv]
      omega

lemma parseNatAux_map_digitChar (l : List Nat) :
    ∀ acc, (∀ d ∈ l, d < 10) →
      parseNatAux (l.map digitChar) acc =
        some (l.foldl (fun a d => a * 10 + d) acc) := by
  induction l with
  | nil => intro acc _; rfl
  | cons d ds ih =>
    intro acc h
    have hd : d < 10 := h d (List.mem_cons_self d ds)
    simp only [List.map_cons, parseNatAux, charToDigit_digitChar d hd, List.foldl_cons]
    exact ih (acc * 10 + d) (fun x hx => h x (List.mem_cons_of_mem d hx))

lemma foldl_reverse_valLE (ds : List Nat) :
    ∀ acc, ds.reverse.foldl (fun a d => a * 10 + d) acc =
      acc * 10 ^ ds.length + valLE ds := by
  induction ds with
  | nil => intro acc; simp [valLE]
  | cons d rest ih =>
    intro acc
    simp only [List.reverse_cons, List.foldl_append, ih acc, List.foldl_cons,
      List.foldl_nil, valLE, List.length_cons]
    ring

lemma parseNatChars_natToStr (n : Nat) :
    parseNatChars (natToStr n).data = some n := by
  by_cases hn : n = 0
  · subst hn; rfl
  · have hne : natDigits n ≠ [] := by
      unfold natDigits
      cases n with
      | zero => exact absurd rfl hn
      | succ m =>
        simp [natToDigitsAux]
    simp only [natToStr, hn, if_false]
    have hmapne : (natDigits n).reverse.map digitChar ≠ [] := by
      simp [hne]
    unfold parseNatChars
    rw [if_neg hmapne]
    rw [parseNatAux_map_digitChar (natDigits n).reverse 0
      (fun d hd => natToDigitsAux_lt n n d (List.mem_reverse.mp hd))]
    rw [foldl_reverse_valLE (natDigits n) 0]
    simp only [Nat.zero_mul, Nat.zero_add, Option.some.injEq]
    exact valLE_natToDigitsAux n n (Nat.le_refl n)

lemma natToStr_head_digit (n : Nat) :
    ∀ c ∈ (natToStr n).data, ∃ d, c = digitChar d := by
  intro c hc
  by_cases hn : n = 0
  · subst hn
    simp only [natToStr, if_pos rfl] at hc
    have : c = '0' := by
      cases hc with
      | head => rfl
      | tail _ h => cases h
    exact ⟨0, this⟩
  · simp only [natToStr, hn, if_false] at hc
    have hc' : c ∈ (natDigits n).reverse.map digitChar := hc
    rcases List.mem_map.mp hc' with ⟨d, _, hd⟩
    exact ⟨d, hd.symm⟩

lemma parseIntStr_intToStr (i : Int) : parseIntStr (intToStr i) = Except.ok i := by
  by_cases hneg : i < 0
  · have hdata : (intToStr i).data = '-' :: (natToStr i.natAbs).data := by
      simp only [intToStr, if_pos hneg]
      rw [String.data_append]
      rfl
    unfold parseIntStr
    rw [hdata]
    simp only [parseIntChars, reduceIte, parseNatChars_natToStr i.natAbs,
      Except.ok.injEq]
    omega
  · have hdata := parseNatChars_natToStr i.toNat
    have hi : intToStr i = natToStr i.toNat := by
      simp [intToStr, hneg]
    unfold parseIntStr
    rw [hi]
    cases hd : (natToStr i.toNat).data with
    | nil =>
      rw [hd] at hdata
      simp [parseNatChars] at hdata
    | cons c cs =>
      have hcdig : ∃ d, c = digitChar d := by
        apply natToStr_head_digit i.toNat
        rw [hd]
        exact List.mem_cons_self c cs
      rcases hcdig with ⟨d, hcd⟩
      have hcne : ¬(c = '-') := by
        rw [hcd]
        exact digitChar_ne_dash d
      rw [hd] at hdata
      have hcast : ((i.toNat : Nat) : Int) = i := by omega
      simp [parseIntChars, if_neg hcne, hdata, hcast]

/-- JSON values, as produced by json.load on the persisted token file. -/
inductive Json where
  | jnull
  | jbool (b : Bool)
  | jint (n : Int)
  | jstr (s : String)
  | jarr (xs : List Json)
  | jobj (kvs : List (String × Json))

/-- Content of the persisted token file as load_tokens sees it: the file may
be missing, may fail to decode as JSON (json.JSONDecodeError), or holds a
decoded JSON value. Duplicate object keys are already collapsed by
json.load, but nothing here depends on that. -/
inductive FileContent where
  | absent
  | invalidJson
  | json (j : Json)

/-- Python dict insertion on an insertion-ordered association list: an
existing key keeps its position and gets the new value, a new key is
appended at the end. -/
def dictInsert {α : Type} : List (Int × α) → Int → α → List (Int × α)
  | [], k, v => [(k, v)]
  | (k', v') :: rest, k, v =>
    if k' = k then (k, v) :: rest else (k', v') :: dictInsert rest k v

/-- Python dict lookup. -/
def dictGet {α : Type} : List (Int × α) → Int → Option α
  | [], _ => none
  | (k', v') :: rest, k => if k' = k then some v' else dictGet rest k

/-- First-match lookup in a JSON object. -/
def lookupStr : List (String × Json) → String → Option Json
  | [], _ => none
  | (k, v) :: rest, key => if k = key then some v else lookupStr rest key

/-- Field names of the AthleteToken dataclass, in declaration order. -/
def fieldNames : List String :=
  ["athlete_id", "athlete_name", "access_token", "refresh_token",
   "expires_at", "token_type", "scopes"]

/-- dataclasses.asdict applied to an AthleteToken, as serialized by
_write_tokens (lines 133-140). -/
def asdict (t : AthleteToken) : List (String × Json) :=
  [("athlete_id", Json.jint t.athlete_id),
   ("athlete_name", Json.jstr t.athlete_name),
   ("access_token", Json.jstr t.access_token),
   ("refresh_token", Json.jstr t.refresh_token),
   ("expires_at", Json.jint t.expires_at),
   ("token_type", Json.jstr t.token_type),
   ("scopes", Json.jstr t.scopes)]

def getIntField (kvs : List (String × Json)) (k : String) : Except PyErr Int :=
  match lookupStr kvs k with
  | some (Json.jint n) => Except.ok n
  | some _ => Except.error PyErr.typeError
  | none => Except.error PyErr.typeError

def getStrField (kvs : List (String × Json)) (k : String) : Except PyErr String :=
  match lookupStr kvs k with
  | some (Json.jstr s) => Except.ok s
  | some _ => Except.error PyErr.typeError
  | none => Except.error PyErr.typeError

def getStrFieldD (kvs : List (String × Json)) (k : String) (dflt : String) :
    Except PyErr String :=
  match lookupStr kvs k with
  | some (Json.jstr s) => Except.ok s
  | some _ => Except.error PyErr.typeError
  | none => Except.ok dflt

/-- The AthleteToken(**token_data) constructor call in load_tokens (line 94):
a non-dict argument or an unexpected or missing keyword raises TypeError
(never the KeyError that the surrounding except clause would catch). The
Python constructor does not type-check field values; every document this
program writes is well-typed, and an ill-typed field value is folded into
TypeError here. -/
def fromDict : Json → Except PyErr AthleteToken
  | Json.jobj kvs =>
    if kvs.all (fun kv => fieldNames.contains kv.1) then do
      let aid ← getIntField kvs "athlete_id"
      let aname ← getStrField kvs "athlete_name"
      let acc ← getStrField kvs "access_token"
      let rt ← getStrField kvs "refresh_token"
      let ea ← getIntField kvs "expires_at"
      let tt ← getStrFieldD kvs "token_type" "Bearer"
      let sc ← getStrFieldD kvs "scopes" DEFAULT_SCOPES
      Except.ok ⟨aid, aname, acc, rt, ea, tt, sc⟩
    else Except.error PyErr.typeError
  | _ => Except.error PyErr.typeError

/-- Loop body of load_tokens (lines 93-94): for each key-value pair build
the token (evaluated first, as the right-hand side of the assignment) and
parse the key with int(), then insert into the dict. -/
def loadLoop : List (String × Json) → List (Int × AthleteToken) →
    Except PyErr (List (Int × AthleteToken))
  | [], acc => Except.ok acc
  | (k, v) :: rest, acc => do
    let tok ← fromDict v
    let i ← parseIntStr k
    loadLoop rest (dictInsert acc i tok)

/-- TokenStorage.load_tokens (lines 84-98). A missing file yields the empty
dict; the except clause catches json.JSONDecodeError (and KeyError, which
the body never raises); json.load succeeding with a non-object top level
makes data.items() raise AttributeError, which is not caught. -/
def load_tokens : FileContent → Except PyErr (List (Int × AthleteToken))
  | FileContent.absent => Except.ok []
  | FileContent.invalidJson => Except.ok []
  | FileContent.json (Json.jobj kvs) => loadLoop kvs []
  | FileContent.json _ => Except.error PyErr.attributeError

/-- TokenStorage._write_tokens (lines 133-140): serialize the dict keyed by
str(athlete_id) with asdict values, replacing the whole file. -/
def write_tokens (ts : List (Int × AthleteToken)) : FileContent :=
  FileContent.json (Json.jobj
    (ts.map (fun it => (intToStr it.1, Json.jobj (asdict it.2)))))

/-- TokenStorage.save_token (lines 100-108): load, upsert, rewrite. -/
def save_token (f : FileContent) (t : AthleteToken) : Except PyErr FileContent := do
  let ts ← load_tokens f
  Except.ok (write_tokens (dictInsert ts t.athlete_id t))

/-- TokenStorage.get_token (lines 110-113): load and look up. -/
def get_token (f : FileContent) (i : Int) : Except PyErr (Option AthleteToken) := do
  let ts ← load_tokens f
  Except.ok (dictGet ts i)

/-- Keys of an association list are pairwise distinct. -/
def keyNodup {α : Type} (m : List (Int × α)) : Prop :=
  m.Pairwise (fun a b => a.1 ≠ b.1)

lemma fromDict_asdict (t : AthleteToken) :
    fromDict (Json.jobj (asdict t)) = Except.ok t := rfl

lemma dictInsert_of_not_mem {α : Type} (m : List (Int × α)) (k : Int) (v : α)
    (h : k ∉ m.map Prod.fst) : dictInsert m k v = m ++ [(k, v)] := by
  induction m with
  | nil => rfl
  | cons p rest ih =>
    obtain ⟨k', v'⟩ := p
    simp only [List.map_cons, List.mem_cons] at h
    push_neg at h
    have hne : ¬(k' = k) := fun hk => h.1 hk.symm
    simp only [dictInsert, if_neg hne, List.cons_append]
    rw [ih h.2]

lemma mem_keys_dictInsert {α : Type} (m : List (Int × α)) (k : Int) (v : α)
    (a : Int) (h : a ∈ (dictInsert m k v).map Prod.fst) :
    a ∈ m.map Prod.fst ∨ a = k := by
  induction m with
  | nil =>
    simp [dictInsert] at h
    exact Or.inr h
  | cons p rest ih =>
    obtain ⟨k', v'⟩ := p
    by_cases hk : k' = k
    · simp only [dictInsert, if_pos hk, List.map_cons, List.mem_cons] at h
      rcases h with h | h
      · exact Or.inr h
      · exact Or.inl (by simp [h])
    · simp only [dictInsert, if_neg hk, List.map_cons, List.mem_cons] at h
      rcases h with h | h
      · exact Or.inl (by simp [h])
      · rcases ih h with h' | h'
        · exact Or.inl (List.mem_cons_of_mem _ h')
        · exact Or.inr h'

lemma keyNodup_dictInsert {α : Type} (m : List (Int × α)) (k : Int) (v : α)
    (h : keyNodup m) : keyNodup (dictInsert m k v) := by
  induction m with
  | nil => simp [dictInsert, keyNodup]
  | cons p rest ih =>
    obtain ⟨k', v'⟩ := p
    rw [keyNodup, List.pairwise_cons] at h
    by_cases hk : k' = k
    · simp only [dictInsert, if_pos hk]
      rw [keyNodup, List.pairwise_cons]
      refine ⟨fun b hb => ?_, h.2⟩
      have := h.1 b hb
      rw [hk] at this
      exact this
    · simp only [dictInsert, if_neg hk]
      rw [keyNodup, List.pairwise_cons]
      refine ⟨fun b hb => ?_, ih h.2⟩
      have hbk : b.1 ∈ (dictInsert rest k v).map Prod.fst :=
        List.mem_map.mpr ⟨b, hb, rfl⟩
      rcases mem_keys_dictInsert rest k v b.1 hbk with hmem | heq
      · rcases List.mem_map.mp hmem with ⟨q, hq, hq1⟩
        have := h.1 q hq
        omega
      · omega

lemma dictGet_dictInsert_self {α : Type} (m : List (Int × α)) (k : Int) (v : α) :
    dictGet (dictInsert m k v) k = some v := by
  induction m with
  | nil => simp [dictInsert, dictGet]
  | cons p rest ih =>
    obtain ⟨k', v'⟩ := p
    by_cases hk : k' = k
    · simp [dictInsert, if_pos hk, dictGet]
    · simp [dictInsert, if_neg hk, dictGet, ih]

lemma except_bind_ok {ε α β : Type} (a : α) (f : α → Except ε β) :
    (Except.ok a : Except ε α) >>= f = f a := rfl

lemma except_bind_error {ε α β : Type} (e : ε) (f : α → Except ε β) :
    (Except.error e : Except ε α) >>= f = Except.error e := rfl

lemma loadLoop_nodup (kvs : List (String × Json)) :
    ∀ acc out, loadLoop kvs acc = Except.ok out → keyNodup acc → keyNodup out := by
  induction kvs with
  | nil =>
    intro acc out h hacc
    simp only [loadLoop] at h
    exact (Except.ok.inj h) ▸ hacc
  | cons p rest ih =>
    intro acc out h hacc
    obtain ⟨k, v⟩ := p
    simp only [loadLoop] at h
    cases hv : fromDict v with
    | error e =>
      rw [hv, except_bind_error] at h
      exact Except.noConfusion h
    | ok tok =>
      rw [hv, except_bind_ok] at h
      cases hk : parseIntStr k with
      | error e =>
        rw [hk, except_bind_error] at h
        exact Except.noConfusion h
      | ok i =>
        rw [hk, except_bind_ok] at h
        exact ih _ out h (keyNodup_dictInsert acc i tok hacc)

lemma loadLoop_map_enc (ts : List (Int × AthleteToken)) :
    ∀ acc,
      loadLoop (ts.map (fun it => (intToStr it.1, Json.jobj (asdict it.2)))) acc =
        Except.ok (ts.foldl (fun a it => dictInsert a it.1 it.2) acc) := by
  induction ts with
  | nil => intro acc; rfl
  | cons p rest ih =>
    intro acc
    obtain ⟨i, t⟩ := p
    simp only [List.map_cons, loadLoop, List.foldl_cons]
    rw [fromDict_asdict, except_bind_ok, parseIntStr_intToStr, except_bind_ok]
    exact ih (dictInsert acc i t)

lemma foldl_dictInsert_eq (m : List (Int × AthleteToken)) :
    ∀ acc, keyNodup m → (∀ p ∈ m, p.1 ∉ acc.map Prod.fst) →
      m.foldl (fun a it => dictInsert a it.1 it.2) acc = acc ++ m := by
  induction m with
  | nil => intro acc _ _; simp
  | cons p rest ih =>
    intro acc hnody hdisj
    obtain ⟨k, v⟩ := p
    rw [keyNodup, List.pairwise_cons] at hnody
    simp only [List.foldl_cons]
    have hkacc : k ∉ acc.map Prod.fst := hdisj (k, v) (List.mem_cons_self _ _)
    rw [dictInsert_of_not_mem acc k v hkacc]
    have hdisj' : ∀ q ∈ rest, q.1 ∉ (acc ++ [(k, v)]).map Prod.fst := by
      intro q hq hmem
      rw [List.map_append, List.mem_append] at hmem
      rcases hmem with hmem | hmem
      · exact hdisj q (List.mem_cons_of_mem _ hq) hmem
      · simp only [List.map_cons, List.map_nil, List.mem_singleton] at hmem
        exact (hnody.1 q hq) hmem.symm
    rw [ih (acc ++ [(k, v)]) hnody.2 hdisj']
    simp

lemma load_tokens_nodup (f : FileContent) (ts : List (Int × AthleteToken))
    (h : load_tokens f = Except.ok ts) : keyNodup ts := by
  cases f with
  | absent =>
    have : ([] : List (Int × AthleteToken)) = ts := Except.ok.inj h
    rw [← this]
    exact List.Pairwise.nil
  | invalidJson =>
    have : ([] : List (Int × AthleteToken)) = ts := Except.ok.inj h
    rw [← this]
    exact List.Pairwise.nil
  | json j =>
    cases j with
    | jobj kvs => exact loadLoop_nodup kvs [] ts h List.Pairwise.nil
    | jnull => exact Except.noConfusion h
    | jbool b => exact Except.noConfusion h
    | jint n => exact Except.noConfusion h
    | jstr s => exact Except.noConfusion h
    | jarr xs => exact Except.noConfusion h

lemma load_write_tokens (ts : List (Int × AthleteToken)) (h : keyNodup ts) :
    load_tokens (write_tokens ts) = Except.ok ts := by
  show loadLoop (ts.map (fun it => (intToStr it.1, Json.jobj (asdict it.2)))) [] =
    Except.ok ts
  rw [loadLoop_map_enc ts []]
  rw [foldl_dictInsert_eq ts [] h (by intro p _ hmem; simp at hmem)]
  rfl

/-- C5: saving a credential and then getting its principal id returns an
equal credential; every field, the integer athlete id included, survives
the round trip through the persisted JSON document. The hypothesis states
that save_token itself succeeded, that is, the prior file content loaded
without an uncaught exception. -/
theorem save_get_roundtrip (f : FileContent) (c : AthleteToken) (f' : FileContent)
    (h : save_token f c = Except.ok f') :
    get_token f' c.athlete_id = Except.ok (some c) := by
  unfold save_token at h
  cases hl : load_tokens f with
  | error e =>
    rw [hl, except_bind_error] at h
    exact Except.noConfusion h
  | ok ts =>
    rw [hl, except_bind_ok] at h
    have hf' : f' = write_tokens (dictInsert ts c.athlete_id c) :=
      (Except.ok.inj h).symm
    subst hf'
    have hnody := keyNodup_dictInsert ts c.athlete_id c (load_tokens_nodup f ts hl)
    unfold get_token
    rw [load_write_tokens _ hnody, except_bind_ok, dictGet_dictInsert_self]

/-- A concrete token used by the storage witnesses. -/
def sampleToken : AthleteToken :=
  ⟨7, "Alice", "acc", "ref", 1000, "Bearer", DEFAULT_SCOPES⟩

/-- Witness for C5: saving the sample token into an absent store and
reading athlete id 7 back returns the very same token. -/
theorem save_get_roundtrip_witness :
    get_token (write_tokens [((7 : Int), sampleToken)]) (7 : Int) =
      Except.ok (some sampleToken) :=
  save_get_roundtrip FileContent.absent sampleToken
    (write_tokens [((7 : Int), sampleToken)]) rfl

/-- C6 counterexample: a file whose content is valid JSON but not an object
(here the JSON array []) makes load_tokens raise an uncaught
AttributeError from data.items(), contradicting the claim that load_all
returns a map on every content and never raises. -/
theorem load_tokens_raises_on_json_array :
    load_tokens (FileContent.json (Json.jarr [])) =
      Except.error PyErr.attributeError := rfl

/-- C6 (amended): load_tokens returns the empty map, without raising, on a
missing file and on content that fails JSON decoding; but content that
decodes to a non-object JSON value raises an uncaught AttributeError. -/
theorem load_tokens_empty_on_unreadable :
    load_tokens FileContent.absent = Except.ok [] ∧
    load_tokens FileContent.invalidJson = Except.ok [] ∧
    (∀ j : Json, (∀ kvs, j ≠ Json.jobj kvs) →
      load_tokens (FileContent.json j) = Except.error PyErr.attributeError) := by
  refine ⟨rfl, rfl, ?_⟩
  intro j hj
  cases j with
  | jobj kvs => exact absurd rfl (hj kvs)
  | jnull => rfl
  | jbool b => rfl
  | jint n => rfl
  | jstr s => rfl
  | jarr xs => rfl

/-- Witness for the amended C6: a JSON null top level raises
AttributeError. -/
theorem load_tokens_empty_on_unreadable_witness :
    load_tokens (FileContent.json Json.jnull) = Except.error PyErr.attributeError :=
  load_tokens_empty_on_unreadable.2.2 Json.jnull (fun _ h => Json.noConfusion h)

/-- JSON body of a token-endpoint refresh response; each field is optional,
matching the dict returned by response.json(). -/
structure RefreshData where
  access_token : Option String
  refresh_token : Option String
  expires_at : Option Int
  token_type : Option String

/-- Outcome of the POST to the token endpoint during a refresh. The first
three constructors are precisely the cases in which requests raises a
requests.RequestException (transport failure; raise_for_status on a non-2xx
status; invalid JSON body), all caught by the source. -/
inductive RefreshResp where
  | transportError
  | httpError (status : Nat)
  | invalidJson
  | ok (d : RefreshData)

/-- Whether the response makes requests raise a RequestException, which the
except clause of refresh_token catches. -/
def refreshCaught : RefreshResp → Bool
  | RefreshResp.ok _ => false
  | _ => true

/-- Python dict subscripting data[k]: a missing key raises KeyError. -/
def require {α : Type} (o : Option α) : Except PyErr α :=
  match o with
  | some a => Except.ok a
  | none => Except.error PyErr.keyError

/-- StravaOAuthClient.refresh_token (lines 552-595), with the store already
loaded as a dict and the network response passed in. On a RequestException
the except clause logs and returns None, leaving the store untouched. On a
2xx JSON response the updated token is built field by field in the order
of the constructor call, so a missing access_token or expires_at key
raises an uncaught KeyError; the refresh_token field falls back to the
stored one via data.get. -/
def refresh_token_op (store : List (Int × AthleteToken)) (athlete_id : Int)
    (resp : RefreshResp) :
    Except PyErr (Option AthleteToken × List (Int × AthleteToken)) :=
  match dictGet store athlete_id with
  | none => Except.ok (none, store)
  | some tok =>
    match resp with
    | RefreshResp.ok d => do
      let acc ← require d.access_token
      let ea ← require d.expires_at
      let upd : AthleteToken :=
        { athlete_id := tok.athlete_id
          athlete_name := tok.athlete_name
          access_token := acc
          refresh_token := d.refresh_token.getD tok.refresh_token
          expires_at := ea
          token_type := d.token_type.getD "Bearer"
          scopes := tok.scopes }
      Except.ok (some upd, dictInsert store upd.athlete_id upd)
    | _ => Except.ok (none, store)

/-- StravaOAuthClient.get_valid_token (lines 597-610), with the stored dict,
the clock and the refresh operation passed in. Returns the result together
with the number of refresh_token invocations performed. -/
def get_valid_token (store : List (Int × AthleteToken)) (now : Int)
    (refresh : Int → Option AthleteToken) (athlete_id : Int) :
    Option AthleteToken × Nat :=
  match dictGet store athlete_id with
  | none => (none, 0)
  | some t => if t.is_expired now then (refresh athlete_id, 1) else (some t, 0)

/-- C2: get_valid_token returns None with no refresh call when nothing is
stored, returns the stored token unchanged with no refresh call when it is
not expired, and performs exactly one refresh call when it is expired. -/
theorem get_valid_token_refresh_policy (store : List (Int × AthleteToken))
    (now : Int) (refresh : Int → Option AthleteToken) (athlete_id : Int) :
    (dictGet store athlete_id = none →
      get_valid_token store now refresh athlete_id = (none, 0)) ∧
    (∀ t, dictGet store athlete_id = some t → t.is_expired now = false →
      get_valid_token store now refresh athlete_id = (some t, 0)) ∧
    (∀ t, dictGet store athlete_id = some t → t.is_expired now = true →
      get_valid_token store now refresh athlete_id = (refresh athlete_id, 1)) := by
  refine ⟨?_, ?_, ?_⟩
  · intro h
    simp [get_valid_token, h]
  · intro t ht hexp
    simp [get_valid_token, ht, hexp]
  · intro t ht hexp
    simp [get_valid_token, ht, hexp]

/-- A token that is long expired at clock reading 0. -/
def expiredToken : AthleteToken :=
  ⟨1, "Bob", "oldacc", "oldref", -1000, "Bearer", DEFAULT_SCOPES⟩

/-- A token that is still valid at clock reading 0. -/
def validToken : AthleteToken :=
  ⟨2, "Carol", "acc2", "ref2", 100000, "Bearer", DEFAULT_SCOPES⟩

/-- Witness for C2, covering all three branches on concrete stores: an
absent id gives None with zero refresh calls, a valid token is returned
as-is with zero refresh calls, and an expired token triggers exactly one
refresh call. -/
theorem get_valid_token_refresh_policy_witness :
    get_valid_token [] 0 (fun _ => none) 1 = (none, 0) ∧
    get_valid_token [((2 : Int), validToken)] 0 (fun _ => none) 2 =
      (some validToken, 0) ∧
    get_valid_token [((1 : Int), expiredToken)] 0 (fun _ => some validToken) 1 =
      (some validToken, 1) :=
  ⟨(get_valid_token_refresh_policy [] 0 (fun _ => none) 1).1 rfl,
   (get_valid_token_refresh_policy [((2 : Int), validToken)] 0 (fun _ => none) 2).2.1
      validToken rfl (by decide),
   (get_valid_token_refresh_policy [((1 : Int), expiredToken)] 0
      (fun _ => some validToken) 1).2.2 expiredToken rfl (by decide)⟩

/-- C4: when a stored credential exists and the refresh exchange fails with
any RequestException (token-endpoint error or transport failure),
refresh_token returns None without raising and the store — the stale
credential included — is left completely unchanged. -/
theorem refresh_failure_preserves_store (store : List (Int × AthleteToken))
    (athlete_id : Int) (tok : AthleteToken) (resp : RefreshResp)
    (hstored : dictGet store athlete_id = some tok)
    (hfail : refreshCaught resp = true) :
    refresh_token_op store athlete_id resp = Except.ok (none, store) := by
  unfold refresh_token_op
  rw [hstored]
  cases resp with
  | transportError => rfl
  | httpError status => rfl
  | invalidJson => rfl
  | ok d => simp [refreshCaught] at hfail

/-- Witness for C4: a transport failure while refreshing athlete 1 leaves
the singleton store intact and yields None. -/
theorem refresh_failure_preserves_store_witness :
    refresh_token_op [((1 : Int), expiredToken)] 1 RefreshResp.transportError =
      Except.ok (none, [((1 : Int), expiredToken)]) :=
  refresh_failure_preserves_store [((1 : Int), expiredToken)] 1 expiredToken
    RefreshResp.transportError rfl rfl

/-- C8: a successful refresh exchange (2xx response whose JSON carries
access_token and expires_at) yields an updated credential that keeps the
stored athlete_id and athlete_name, takes the new refresh token when the
provider sends one and keeps the prior refresh token when the provider
omits it; the updated credential is saved back into the store. -/
theorem refresh_success_preserves_identity (store : List (Int × AthleteToken))
    (athlete_id : Int) (tok : AthleteToken) (d : RefreshData)
    (acc : String) (ea : Int)
    (hstored : dictGet store athlete_id = some tok)
    (hacc : d.access_token = some acc)
    (hea : d.expires_at = some ea) :
    ∃ upd : AthleteToken,
      refresh_token_op store athlete_id (RefreshResp.ok d) =
        Except.ok (some upd, dictInsert store upd.athlete_id upd) ∧
      upd.athlete_id = tok.athlete_id ∧
      upd.athlete_name = tok.athlete_name ∧
      (∀ r, d.refresh_token = some r → upd.refresh_token = r) ∧
      (d.refresh_token = none → upd.refresh_token = tok.refresh_token) := by
  refine ⟨{ athlete_id := tok.athlete_id
            athlete_name := tok.athlete_name
            access_token := acc
            refresh_token := d.refresh_token.getD tok.refresh_token
            expires_at := ea
            token_type := d.token_type.getD "Bearer"
            scopes := tok.scopes }, ?_, rfl, rfl, ?_, ?_⟩
  · unfold refresh_token_op
    rw [hstored]
    simp only [require, hacc, hea, except_bind_ok]
  · intro r hr
    simp [hr]
  · intro hr
    simp [hr]

/-- Concrete refresh response carrying a new refresh token. -/
def sampleRefreshData : RefreshData :=
  ⟨some "newacc", some "newref", some 99999, some "Bearer"⟩

/-- Witness for C8: refreshing athlete 1 with a response that carries a new
refresh token produces a credential with the stored identity and the new
refresh token, saved back into the store. -/
theorem refresh_success_preserves_identity_witness :
    ∃ upd : AthleteToken,
      refresh_token_op [((1 : Int), expiredToken)] 1
          (RefreshResp.ok sampleRefreshData) =
        Except.ok (some upd, dictInsert [((1 : Int), expiredToken)] upd.athlete_id upd) ∧
      upd.athlete_id = expiredToken.athlete_id ∧
      upd.athlete_name = expiredToken.athlete_name ∧
      (∀ r, sampleRefreshData.refresh_token = some r → upd.refresh_token = r) ∧
      (sampleRefreshData.refresh_token = none →
        upd.refresh_token = expiredToken.refresh_token) :=
  refresh_success_preserves_identity [((1 : Int), expiredToken)] 1 expiredToken
    sampleRefreshData "newacc" 99999 rfl rfl rfl

/-- JSON body of a token-endpoint code-exchange response. The athlete
identity object is modelled with its id present; a missing identity does
not raise in the source (it yields a degenerate token with a None id,
which this typed embedding does not represent), so only the token fields
are optional here. -/
structure ExchangeData where
  athlete_id : Int
  firstname : Option String
  lastname : Option String
  access_token : Option String
  refresh_token : Option String
  expires_at : Option Int
  token_type : Option String

/-- Outcome of the POST to the token endpoint during a code exchange.
The first three constructors are the RequestException cases that the
source catches. -/
inductive ExchangeResp where
  | transportError
  | httpError (status : Nat)
  | invalidJson
  | ok (d : ExchangeData)

/-- Whether the response makes requests raise a RequestException, which the
except clause of _exchange_code_for_token catches. -/
def exchangeCaught : ExchangeResp → Bool
  | ExchangeResp.ok _ => false
  | _ => true

/-- StravaOAuthClient._exchange_code_for_token (lines 512-550), with the
store loaded as a dict and the response passed in. RequestException is
caught and converted to None; on a 2xx JSON response the token fields are
read with subscripting in constructor-argument order, so a missing
access_token, refresh_token or expires_at key raises an uncaught KeyError.
The athlete name is first name and last name joined and stripped. -/
def exchange_code_for_token (scopes : String) (store : List (Int × AthleteToken))
    (resp : ExchangeResp) :
    Except PyErr (Option AthleteToken × List (Int × AthleteToken)) :=
  match resp with
  | ExchangeResp.ok d => do
    let acc ← require d.access_token
    let rt ← require d.refresh_token
    let ea ← require d.expires_at
    let tok : AthleteToken :=
      { athlete_id := d.athlete_id
        athlete_name := ((d.firstname.getD "") ++ " " ++ (d.lastname.getD "")).trim
        access_token := acc
        refresh_token := rt
        expires_at := ea
        token_type := d.token_type.getD "Bearer"
        scopes := scopes }
    Except.ok (some tok, dictInsert store tok.athlete_id tok)
  | _ => Except.ok (none, store)

/-- The tail of StravaOAuthClient.authorize_athlete (lines 486-497)
composed with the code exchange: a captured code leads to the exchange,
a captured error or a timeout leads to a logged reason and None. In the
source this tail sits after the server.shutdown() call at line 484 and is
reachable only if that call returns; authorize_athlete_run places it
behind the shutdown call. -/
def authorize_athlete_result (scopes : String) (store : List (Int × AthleteToken))
    (s : HandlerState) (resp : ExchangeResp) :
    Except PyErr (Option AthleteToken × List (Int × AthleteToken)) :=
  match authOutcome s with
  | AuthOutcome.exchange _ => exchange_code_for_token scopes store resp
  | AuthOutcome.failed _ => Except.ok (none, store)
  | AuthOutcome.timedOut => Except.ok (none, store)

/-- Result of calling a Python function that may block forever instead of
returning. -/
inductive CallResult (α : Type) where
  | blocked
  | returns (a : α)

/-- socketserver.BaseServer.shutdown: it sets the shutdown-request flag and
then waits on the is-shut-down event. That event starts unset and is set
only when a serve_forever loop exits, so shutdown returns exactly when
serve_forever has run and exited, and blocks forever otherwise. -/
def shutdown_result (serveForeverExited : Bool) : CallResult Unit :=
  if serveForeverExited then CallResult.returns () else CallResult.blocked

/-- StravaOAuthClient.authorize_athlete from the end of the wait (lines
483-497): server_thread.join returns (the _run_server loop is
time-bounded), then server.shutdown() is called at line 484, and only
afterwards are the captured code and error examined. The module drives the
server exclusively through handle_request inside _run_server and never
calls serve_forever (the name occurs nowhere in src/strava_oauth.py), so
the is-shut-down event is never set: shutdown runs with
serveForeverExited false on every path. -/
def authorize_athlete_run (scopes : String) (store : List (Int × AthleteToken))
    (s : HandlerState) (resp : ExchangeResp) :
    CallResult (Except PyErr (Option AthleteToken × List (Int × AthleteToken))) :=
  match shutdown_result false with
  | CallResult.blocked => CallResult.blocked
  | CallResult.returns _ =>
    CallResult.returns (authorize_athlete_result scopes store s resp)

/-- C7: the claim states the None-returning contract of the spec, and the
code does not honour it: on every input — whatever the listener captured
and whatever the token endpoint would answer — the authorize_athlete call
blocks forever inside server.shutdown() and never returns, so listener
and exchange failures are never converted to a None return value; the
conversion branch at lines 486-497 is unreachable. -/
theorem authorize_athlete_never_returns (scopes : String)
    (store : List (Int × AthleteToken)) (s : HandlerState) (resp : ExchangeResp) :
    authorize_athlete_run scopes store s resp = CallResult.blocked := rfl
